import Mathlib

/-!
Verification development for the CanvasCraft canvas interaction and
rendering engine.

The definitions below are a shallow embedding of the TypeScript sources:
the canvas store (paths, shapes, selection, bounded undo/redo history,
viewport) from src/lib/canvas-store, the geometry helper
pointToLineDistance from src/lib/utils.ts, and the canvas component logic
(getStroke, snapping, hit-testing, and the pointer event handlers) from
the DrawingCanvas component.  JavaScript numbers are modelled as exact
rationals (the spec treats coordinates as real scalars); the standalone
geometry claim about pointToLineDistance is modelled over the reals.
Transcendental library functions (Math.sqrt, Math.cos, Math.sin,
Math.atan2, Math.PI) are abstracted as parameters, since the claims that
involve them depend only on the control/data flow around them.
Collaboration is modelled in local (non-collaborating) mode, in which the
collaborative wrappers apply the plain store operations directly, as the
spec prescribes.
-/

namespace CanvasCraft

/-- Truthy-or-default for optional JavaScript numbers: the pattern
`v || d` yields d when v is undefined or 0 (0 is falsy in JS). -/
def jsOr (v : Option ℚ) (d : ℚ) : ℚ :=
  match v with
  | none => d
  | some q => if q = 0 then d else q

/-- JavaScript Array.prototype.slice(0, e): a negative end counts from the
end of the array, and the end index is clamped into bounds. -/
def jsSlice0 {α : Type} (l : List α) (e : ℤ) : List α :=
  if e < 0 then l.take ((l.length : ℤ) + e).toNat else l.take e.toNat

/-- The tool enumeration from src/types/canvas.ts. -/
inductive Tool where
  | select | hand | pen | line | rectangle | circle | arrow | text | image | eraser
deriving DecidableEq, Repr

/-- Shape variant tags from src/types/canvas.ts (CanvasShape.type). -/
inductive ShapeType where
  | rectangle | circle | arrow | text | line | image
deriving DecidableEq, Repr

/-- CanvasPath from src/types/canvas.ts: a freehand ink stroke with a
flattened coordinate list. -/
structure CanvasPath where
  id : String
  points : List ℚ
  stroke : String
  strokeWidth : ℚ
  fill : Option String
  opacity : Option ℚ
deriving DecidableEq, Repr

/-- CanvasShape from src/types/canvas.ts: one record with optional
variant-specific fields, as in the source. -/
structure CanvasShape where
  id : String
  type : ShapeType
  x : ℚ
  y : ℚ
  width : Option ℚ
  height : Option ℚ
  radius : Option ℚ
  text : Option String
  fontSize : Option ℚ
  fontFamily : Option String
  backgroundColor : Option String
  isbold : Option Bool
  isitalic : Option Bool
  isunderline : Option Bool
  isstrikethrough : Option Bool
  points : Option (List ℚ)
  stroke : String
  strokeWidth : ℚ
  fill : Option String
  opacity : Option ℚ
  rotation : ℚ
  src : Option String
  filter : Option String
deriving DecidableEq, Repr

/-- A Partial CanvasShape update object: an outer none means the key is
absent from the update, an inner value overwrites the field (spread
semantics of braces-shape, braces-updates merging). -/
structure ShapeUpdate where
  id : Option String
  type : Option ShapeType
  x : Option ℚ
  y : Option ℚ
  width : Option (Option ℚ)
  height : Option (Option ℚ)
  radius : Option (Option ℚ)
  text : Option (Option String)
  fontSize : Option (Option ℚ)
  fontFamily : Option (Option String)
  backgroundColor : Option (Option String)
  isbold : Option (Option Bool)
  isitalic : Option (Option Bool)
  isunderline : Option (Option Bool)
  isstrikethrough : Option (Option Bool)
  points : Option (Option (List ℚ))
  stroke : Option String
  strokeWidth : Option ℚ
  fill : Option (Option String)
  opacity : Option (Option ℚ)
  rotation : Option ℚ
  src : Option (Option String)
  filter : Option (Option String)
deriving DecidableEq, Repr

/-- An update object with every key absent. -/
def ShapeUpdate.empty : ShapeUpdate :=
  ⟨none, none, none, none, none, none, none, none, none, none, none, none,
   none, none, none, none, none, none, none, none, none, none, none⟩

/-- Object spread: braces-shape, braces-updates. -/
def applyShapeUpdate (u : ShapeUpdate) (sh : CanvasShape) : CanvasShape :=
  { id := u.id.getD sh.id
    type := u.type.getD sh.type
    x := u.x.getD sh.x
    y := u.y.getD sh.y
    width := u.width.getD sh.width
    height := u.height.getD sh.height
    radius := u.radius.getD sh.radius
    text := u.text.getD sh.text
    fontSize := u.fontSize.getD sh.fontSize
    fontFamily := u.fontFamily.getD sh.fontFamily
    backgroundColor := u.backgroundColor.getD sh.backgroundColor
    isbold := u.isbold.getD sh.isbold
    isitalic := u.isitalic.getD sh.isitalic
    isunderline := u.isunderline.getD sh.isunderline
    isstrikethrough := u.isstrikethrough.getD sh.isstrikethrough
    points := u.points.getD sh.points
    stroke := u.stroke.getD sh.stroke
    strokeWidth := u.strokeWidth.getD sh.strokeWidth
    fill := u.fill.getD sh.fill
    opacity := u.opacity.getD sh.opacity
    rotation := u.rotation.getD sh.rotation
    src := u.src.getD sh.src
    filter := u.filter.getD sh.filter }

/-- A Partial CanvasPath update object. -/
structure PathUpdate where
  id : Option String
  points : Option (List ℚ)
  stroke : Option String
  strokeWidth : Option ℚ
  fill : Option (Option String)
  opacity : Option (Option ℚ)
deriving DecidableEq, Repr

/-- An update object with every key absent. -/
def PathUpdate.empty : PathUpdate := ⟨none, none, none, none, none, none⟩

/-- Object spread for paths. -/
def applyPathUpdate (u : PathUpdate) (p : CanvasPath) : CanvasPath :=
  { id := u.id.getD p.id
    points := u.points.getD p.points
    stroke := u.stroke.getD p.stroke
    strokeWidth := u.strokeWidth.getD p.strokeWidth
    fill := u.fill.getD p.fill
    opacity := u.opacity.getD p.opacity }

/-- A history entry: the snapshot of braces-paths-shapes pushed by
saveToHistory. -/
structure HistoryEntry where
  paths : List CanvasPath
  shapes : List CanvasShape
deriving DecidableEq, Repr

/-- Guide line axis from src/types/canvas.ts. -/
inductive GuideType where
  | horizontal | vertical
deriving DecidableEq, Repr

/-- GuideLine from src/types/canvas.ts. -/
structure GuideLine where
  id : String
  type : GuideType
  position : ℚ
  isTemp : Option Bool
deriving DecidableEq, Repr

/-- The zustand canvas store state used by the claims: canvas content,
selection, history log with cursor, and the viewport transform. -/
structure Store where
  paths : List CanvasPath
  shapes : List CanvasShape
  selectedIds : List String
  history : List HistoryEntry
  historyIndex : ℤ
  stagePos : ℚ × ℚ
  stageScale : ℚ
deriving DecidableEq, Repr

/-- Initial store when localStorage has no saved data: empty content,
empty history, cursor -1. -/
def initialStore : Store :=
  ⟨[], [], [], [], -1, (0, 0), 1⟩

/-- Initial store when localStorage held saved data: that data is the
single history entry and the cursor is 0. -/
def loadedStore (p : List CanvasPath) (sh : List CanvasShape) : Store :=
  ⟨p, sh, [], [⟨p, sh⟩], 0, (0, 0), 1⟩

/-- saveToHistory from canvas-store: truncate the log after the cursor,
push a snapshot of braces-paths-shapes; if the length now exceeds 50,
shift out the oldest entry without advancing the cursor, otherwise
advance the cursor. -/
def saveToHistory (s : Store) : Store :=
  let newHistory := jsSlice0 s.history (s.historyIndex + 1) ++ [⟨s.paths, s.shapes⟩]
  if newHistory.length > 50 then
    { s with history := newHistory.drop 1 }
  else
    { s with history := newHistory, historyIndex := s.historyIndex + 1 }

/-- undo from canvas-store: when the cursor is positive, restore the
previous snapshot, move the cursor back and clear the selection.  The
source indexes history at cursor - 1, which for a cursor-bounded store is
always in range; an out-of-range read keeps the state (in JS it would
throw, but such states are unreachable). -/
def undo (s : Store) : Store :=
  if s.historyIndex > 0 then
    match s.history.get? (s.historyIndex - 1).toNat with
    | some prev =>
        { s with paths := prev.paths, shapes := prev.shapes,
                 historyIndex := s.historyIndex - 1, selectedIds := [] }
    | none => s
  else s

/-- redo from canvas-store: symmetric forward move. -/
def redo (s : Store) : Store :=
  if s.historyIndex < (s.history.length : ℤ) - 1 then
    match s.history.get? (s.historyIndex + 1).toNat with
    | some nxt =>
        { s with paths := nxt.paths, shapes := nxt.shapes,
                 historyIndex := s.historyIndex + 1, selectedIds := [] }
    | none => s
  else s

/-- canUndo from canvas-store. -/
def canUndo (s : Store) : Bool :=
  decide (0 < s.historyIndex)

/-- canRedo from canvas-store. -/
def canRedo (s : Store) : Bool :=
  decide (s.historyIndex < (s.history.length : ℤ) - 1)

/-- addPath from canvas-store: append and commit. -/
def addPath (p : CanvasPath) (s : Store) : Store :=
  saveToHistory { s with paths := s.paths ++ [p] }

/-- addShape from canvas-store: append and commit. -/
def addShape (sh : CanvasShape) (s : Store) : Store :=
  saveToHistory { s with shapes := s.shapes ++ [sh] }

/-- updateShape from canvas-store: merge the update into the shape with
the given id (other shapes unchanged) and commit. -/
def updateShape (id : String) (u : ShapeUpdate) (s : Store) : Store :=
  saveToHistory
    { s with shapes := s.shapes.map (fun sh => if sh.id = id then applyShapeUpdate u sh else sh) }

/-- deleteShape from canvas-store: filter out the id and commit. -/
def deleteShape (id : String) (s : Store) : Store :=
  saveToHistory { s with shapes := s.shapes.filter (fun sh => sh.id ≠ id) }

/-- deletePath from canvas-store: filter out the id and commit. -/
def deletePath (id : String) (s : Store) : Store :=
  saveToHistory { s with paths := s.paths.filter (fun p => p.id ≠ id) }

/-- clearPaths from canvas-store. -/
def clearPaths (s : Store) : Store :=
  saveToHistory { s with paths := [] }

/-- clearShapes from canvas-store. -/
def clearShapes (s : Store) : Store :=
  saveToHistory { s with shapes := [] }

/-- clearCanvas from canvas-store. -/
def clearCanvas (s : Store) : Store :=
  saveToHistory { s with paths := [], shapes := [], selectedIds := [] }

/-- deleteSelected from canvas-store: drop every selected entity and the
selection itself, then commit. -/
def deleteSelected (s : Store) : Store :=
  saveToHistory
    { s with shapes := s.shapes.filter (fun sh => ¬ s.selectedIds.contains sh.id),
             paths := s.paths.filter (fun p => ¬ s.selectedIds.contains p.id),
             selectedIds := [] }

/-- setSelectedIds from canvas-store. -/
def setSelectedIds (ids : List String) (s : Store) : Store :=
  { s with selectedIds := ids }

/-- addToSelection from canvas-store. -/
def addToSelection (id : String) (s : Store) : Store :=
  if s.selectedIds.contains id then s else { s with selectedIds := s.selectedIds ++ [id] }

/-- removeFromSelection from canvas-store. -/
def removeFromSelection (id : String) (s : Store) : Store :=
  { s with selectedIds := s.selectedIds.filter (fun i => i ≠ id) }

/-- clearSelection from canvas-store. -/
def clearSelection (s : Store) : Store :=
  { s with selectedIds := [] }

/-- setStagePos from canvas-store. -/
def setStagePos (p : ℚ × ℚ) (s : Store) : Store :=
  { s with stagePos := p }

/-- setStageScale from canvas-store (zoomIn, zoomOut, resetZoom and
fitToScreen all reduce to it plus setStagePos). -/
def setStageScale (q : ℚ) (s : Store) : Store :=
  { s with stageScale := q }

/-- loadFromLocalStorage with valid data: replace the content, clear the
selection and commit, as in canvas-store. -/
def loadData (p : List CanvasPath) (sh : List CanvasShape) (s : Store) : Store :=
  saveToHistory { s with paths := p, shapes := sh, selectedIds := [] }

/-- Modelled from the spec: the store action eraseSelected, which the
DrawingCanvas component calls on eraser pointer-up but whose store
implementation is not under src/.  Per the spec (section 4.8), all
touched ids are deleted from shapes and paths in one batch with a single
history commit, and stale selected ids are pruned on delete. -/
def eraseSelected (ids : List String) (s : Store) : Store :=
  saveToHistory
    { s with shapes := s.shapes.filter (fun sh => ¬ ids.contains sh.id),
             paths := s.paths.filter (fun p => ¬ ids.contains p.id),
             selectedIds := s.selectedIds.filter (fun i => ¬ ids.contains i) }

/-- Modelled from the spec: the store action updatePath, which the
DrawingCanvas component calls (through collaborativeUpdatePath) while
erasing, but whose store implementation is not under src/.  Per the spec
updateEntity merges partial fields into the entity with the given id; as
a model mutation it commits once, like updateShape. -/
def updatePath (id : String) (u : PathUpdate) (s : Store) : Store :=
  saveToHistory
    { s with paths := s.paths.map (fun p => if p.id = id then applyPathUpdate u p else p) }

/-- Iterated undo, for the history scenarios. -/
def iterUndo : ℕ → Store → Store
  | 0, s => s
  | n + 1, s => iterUndo n (undo s)

/-- A distinct committed path per scenario step. -/
def mkPath (k : ℕ) : CanvasPath :=
  ⟨toString k, [(k : ℚ)], "#000000", 2, none, none⟩

/-- Sixty commits starting from the empty store, each a model mutation
followed by its history commit (addPath). -/
def commit60 : Store :=
  (List.range 60).foldl (fun st k => addPath (mkPath k) st) initialStore

/-- A concrete rectangle used by scenario witnesses. -/
def demoShape (id : String) (x y w h : ℚ) : CanvasShape :=
  ⟨id, ShapeType.rectangle, x, y, some w, some h, none, none, none, none, none,
   none, none, none, none, none, "#000000", 2, none, some 1, 0, none, none⟩

/-- A concrete store holding one shape and one path, used by witnesses. -/
def demoStore : Store :=
  ⟨[⟨"b", [0, 0, 4, 0], "#000000", 2, none, none⟩], [demoShape "a" 0 0 10 10],
   [], [⟨[], []⟩], 0, (0, 0), 1⟩

/-- pointToLineDistance from src/lib/utils.ts, over the reals (the spec
treats coordinates as exact scalars).  Real.sqrt makes this definition
noncomputable; it mirrors the source expression for expression. -/
noncomputable def pointToLineDistance (px py x1 y1 x2 y2 : ℝ) : ℝ :=
  let lineLengthSq := (x2 - x1) * (x2 - x1) + (y2 - y1) * (y2 - y1)
  if lineLengthSq = 0 then
    Real.sqrt ((px - x1) * (px - x1) + (py - y1) * (py - y1))
  else
    let t := max 0 (min 1 (((px - x1) * (x2 - x1) + (py - y1) * (y2 - y1)) / lineLengthSq))
    let projectionX := x1 + t * (x2 - x1)
    let projectionY := y1 + t * (y2 - y1)
    Real.sqrt ((px - projectionX) * (px - projectionX) + (py - projectionY) * (py - projectionY))

/-- The projection of p onto the segment with the projection parameter
clamped to the unit interval (the quantity the spec describes; in the
degenerate case the projection is the start point). -/
noncomputable def segProjection (px py x1 y1 x2 y2 : ℝ) : ℝ × ℝ :=
  let lineLengthSq := (x2 - x1) * (x2 - x1) + (y2 - y1) * (y2 - y1)
  if lineLengthSq = 0 then (x1, y1)
  else
    let t := max 0 (min 1 (((px - x1) * (x2 - x1) + (py - y1) * (y2 - y1)) / lineLengthSq))
    (x1 + t * (x2 - x1), y1 + t * (y2 - y1))

/-- Membership of a point on a closed segment, as a convex combination of
the endpoints. -/
def OnSegment (px py x1 y1 x2 y2 : ℝ) : Prop :=
  ∃ t : ℝ, 0 ≤ t ∧ t ≤ 1 ∧ px = x1 + t * (x2 - x1) ∧ py = y1 + t * (y2 - y1)

/-- Abstract versions of the Math library functions used by getStroke.
The claims about the outliner concern only its control and data flow, so
cos, sin, atan2 and the constant pi are parameters. -/
structure TrigEnv where
  cos : ℚ → ℚ
  sin : ℚ → ℚ
  atan2 : ℚ → ℚ → ℚ
  pi : ℚ

/-- A concrete trig environment for closed evaluations. -/
def trigZero : TrigEnv :=
  ⟨fun _ => 0, fun _ => 0, fun _ _ => 0, 0⟩

/-- The simulated-pressure input points of getStroke: pressure peaks at
the middle of the sequence and falls off linearly toward both ends. -/
def strokeInputPoints (points : List (ℚ × ℚ)) (simulatePressure : Bool) : List (ℚ × ℚ × ℚ) :=
  let n := points.length
  points.enum.map (fun ip =>
    let pressure :=
      if simulatePressure then
        min 1 (1 - |(ip.1 : ℚ) - (n : ℚ) / 2| / ((n : ℚ) / 2))
      else 1 / 2
    (ip.2.1, ip.2.2, pressure))

/-- The body of the first getStroke loop for every index after 0: offset
each point perpendicular to the angle from the previous point. -/
def fwdWalk (T : TrigEnv) (size thinning : ℚ) :
    (ℚ × ℚ × ℚ) → List (ℚ × ℚ × ℚ) → List (ℚ × ℚ)
  | _, [] => []
  | prev, cur :: rest =>
      let x := cur.1
      let y := cur.2.1
      let pressure := cur.2.2
      let currentSize := size * (1 - thinning * (1 - pressure))
      let angle := T.atan2 (y - prev.2.1) (x - prev.1)
      let perpAngle := angle + T.pi / 2
      (x + T.cos perpAngle * currentSize / 2, y + T.sin perpAngle * currentSize / 2) ::
        fwdWalk T size thinning cur rest

/-- The first getStroke loop: index 0 contributes the two cap points, and
every later index one offset point. -/
def forwardRail (T : TrigEnv) (size thinning : ℚ) : List (ℚ × ℚ × ℚ) → List (ℚ × ℚ)
  | [] => []
  | first :: rest =>
      let x := first.1
      let y := first.2.1
      let pressure := first.2.2
      let currentSize := size * (1 - thinning * (1 - pressure))
      (x - currentSize / 2, y - currentSize / 2) ::
      (x + currentSize / 2, y - currentSize / 2) ::
        fwdWalk T size thinning first rest

/-- The body of the second getStroke loop for every index after 0, in
forward order (the loop itself runs backward, hence the reverse in
backwardRail). -/
def bwdWalk (T : TrigEnv) (size thinning : ℚ) :
    (ℚ × ℚ × ℚ) → List (ℚ × ℚ × ℚ) → List (ℚ × ℚ)
  | _, [] => []
  | prev, cur :: rest =>
      let x := cur.1
      let y := cur.2.1
      let pressure := cur.2.2
      let currentSize := size * (1 - thinning * (1 - pressure))
      let angle := T.atan2 (y - prev.2.1) (x - prev.1)
      let perpAngle := angle - T.pi / 2
      (x + T.cos perpAngle * currentSize / 2, y + T.sin perpAngle * currentSize / 2) ::
        bwdWalk T size thinning cur rest

/-- The second getStroke loop, walking from the last index down to 0 with
the opposite-facing perpendicular offset; index 0 uses angle 0. -/
def backwardRail (T : TrigEnv) (size thinning : ℚ) : List (ℚ × ℚ × ℚ) → List (ℚ × ℚ)
  | [] => []
  | first :: rest =>
      let x := first.1
      let y := first.2.1
      let pressure := first.2.2
      let currentSize := size * (1 - thinning * (1 - pressure))
      let perpAngle := (0 : ℚ) - T.pi / 2
      ((x + T.cos perpAngle * currentSize / 2, y + T.sin perpAngle * currentSize / 2) ::
        bwdWalk T size thinning first rest).reverse

/-- getStroke from the DrawingCanvas component: simulate per-point
pressure, walk the samples forward for one rail and backward for the
return rail, and concatenate both rails into a closed polygon. -/
def getStroke (T : TrigEnv) (points : List (ℚ × ℚ)) (size thinning : ℚ)
    (simulatePressure : Bool) : List (ℚ × ℚ) :=
  let inputPoints := strokeInputPoints points simulatePressure
  forwardRail T size thinning inputPoints ++ backwardRail T size thinning inputPoints

/-- Store states reachable through the store's public operations (initial
load, model mutations, selection and viewport updates, undo and redo).
Zoom helpers are instances of setStageScale and setStagePos. -/
inductive Reach : Store → Prop
  | init : Reach initialStore
  | load (p : List CanvasPath) (sh : List CanvasShape) : Reach (loadedStore p sh)
  | stepAddPath (p : CanvasPath) {s : Store} : Reach s → Reach (addPath p s)
  | stepAddShape (sh : CanvasShape) {s : Store} : Reach s → Reach (addShape sh s)
  | stepUpdateShape (id : String) (u : ShapeUpdate) {s : Store} :
      Reach s → Reach (updateShape id u s)
  | stepUpdatePath (id : String) (u : PathUpdate) {s : Store} :
      Reach s → Reach (updatePath id u s)
  | stepDeleteShape (id : String) {s : Store} : Reach s → Reach (deleteShape id s)
  | stepDeletePath (id : String) {s : Store} : Reach s → Reach (deletePath id s)
  | stepClearPaths {s : Store} : Reach s → Reach (clearPaths s)
  | stepClearShapes {s : Store} : Reach s → Reach (clearShapes s)
  | stepClearCanvas {s : Store} : Reach s → Reach (clearCanvas s)
  | stepDeleteSelected {s : Store} : Reach s → Reach (deleteSelected s)
  | stepEraseSelected (ids : List String) {s : Store} : Reach s → Reach (eraseSelected ids s)
  | stepLoadData (p : List CanvasPath) (sh : List CanvasShape) {s : Store} :
      Reach s → Reach (loadData p sh s)
  | stepSetSelectedIds (ids : List String) {s : Store} : Reach s → Reach (setSelectedIds ids s)
  | stepAddToSelection (id : String) {s : Store} : Reach s → Reach (addToSelection id s)
  | stepRemoveFromSelection (id : String) {s : Store} :
      Reach s → Reach (removeFromSelection id s)
  | stepClearSelection {s : Store} : Reach s → Reach (clearSelection s)
  | stepSetStagePos (p : ℚ × ℚ) {s : Store} : Reach s → Reach (setStagePos p s)
  | stepSetStageScale (q : ℚ) {s : Store} : Reach s → Reach (setStageScale q s)
  | stepUndo {s : Store} : Reach s → Reach (undo s)
  | stepRedo {s : Store} : Reach s → Reach (redo s)

/-- The history invariant: the cursor is within bounds, the log is
bounded at 50, the entry under the cursor is the current content, and a
cursor of -1 only occurs with an empty log. -/
def Inv (s : Store) : Prop :=
  s.historyIndex < (s.history.length : ℤ) ∧
  -1 ≤ s.historyIndex ∧
  s.history.length ≤ 50 ∧
  (0 ≤ s.historyIndex →
    s.history.get? s.historyIndex.toNat = some (HistoryEntry.mk s.paths s.shapes)) ∧
  (s.historyIndex = -1 → s.history = [])

/-- The nine snap points contributed by one shape in getAllSnapPoints:
the four corners, the center and the four edge midpoints of its
axis-aligned bounding box (destructuring defaults width and height to 0
only when absent). -/
def shapeSnapPoints (shape : CanvasShape) : List (ℚ × ℚ) :=
  let x := shape.x
  let y := shape.y
  let width := shape.width.getD 0
  let height := shape.height.getD 0
  [(x, y), (x + width, y), (x, y + height), (x + width, y + height),
   (x + width / 2, y + height / 2),
   (x + width / 2, y), (x + width / 2, y + height),
   (x, y + height / 2), (x + width, y + height / 2)]

/-- getAllSnapPoints from the DrawingCanvas component: every shape other
than the one being manipulated contributes its nine snap points. -/
def getAllSnapPoints (shapes : List CanvasShape) (currentShape : Option CanvasShape) :
    List (ℚ × ℚ) :=
  (shapes.map (fun shape =>
    match currentShape with
    | some cs => if shape.id = cs.id then [] else shapeSnapPoints shape
    | none => shapeSnapPoints shape)).join

/-- One step of the snapping reduce: a candidate value replaces the
accumulator when it is strictly closer than the current closest (every
finite distance beats the initial Infinity, modelled as none) and within
tolerance. -/
def snapStep (x tol : ℚ) (closest : Option ℚ) (v : ℚ) : Option ℚ :=
  let distance := |x - v|
  let isCloser : Bool :=
    match closest with
    | none => true
    | some c => decide (distance < |x - c|)
  if isCloser && decide (distance ≤ tol) then some v else closest

/-- The X-axis snapping reduce of applySnapping. -/
def snapReduceX (x tol : ℚ) (pts : List (ℚ × ℚ)) : Option ℚ :=
  pts.foldl (fun closest pos => snapStep x tol closest pos.1) none

/-- The Y-axis snapping reduce of applySnapping. -/
def snapReduceY (y tol : ℚ) (pts : List (ℚ × ℚ)) : Option ℚ :=
  pts.foldl (fun closest pos => snapStep y tol closest pos.2) none

/-- The result of applySnapping: the possibly snapped coordinates, and
the temp guides it wrote (none when snapping is disabled, since the early
return skips setTempGuides). -/
structure SnapResult where
  x : ℚ
  y : ℚ
  guides : Option (List GuideLine)
deriving DecidableEq, Repr

/-- applySnapping from the DrawingCanvas component: per axis, the closest
snap-point coordinate within snapDistance / stageScale replaces the
candidate coordinate and emits one guide at the snapped position. -/
def applySnapping (snapEnabled : Bool) (snapDistance stageScale : ℚ) (now : String)
    (shapes : List CanvasShape) (x y : ℚ) (shape : Option CanvasShape) : SnapResult :=
  if !snapEnabled then ⟨x, y, none⟩
  else
    let snapPoints := getAllSnapPoints shapes shape
    let closestX := snapReduceX x (snapDistance / stageScale) snapPoints
    let closestY := snapReduceY y (snapDistance / stageScale) snapPoints
    let tempGuides :=
      (match closestX with
       | some v => [GuideLine.mk ("temp-v-" ++ now) GuideType.vertical v (some true)]
       | none => []) ++
      (match closestY with
       | some v => [GuideLine.mk ("temp-h-" ++ now) GuideType.horizontal v (some true)]
       | none => [])
    ⟨closestX.getD x, closestY.getD y, some tempGuides⟩

/-- The resize handle names of getResizeHandle. -/
inductive Handle where
  | nw | ne | sw | se | n | s | w | e
deriving DecidableEq, Repr

/-- The per-event environment the DrawingCanvas handlers read: the store
fields distributed into the component (tool, style settings, snapping
toggle and the snapDistance component state, whose initial value is 1),
the shift modifier of the event, the Date.now timestamp used for
generated ids, the canvas bounding rectangle origin, and the abstract
Math.sqrt used by the path hit test. -/
structure Env where
  tool : Tool
  shiftKey : Bool
  snapEnabled : Bool
  snapDistance : ℚ
  strokeColor : String
  strokeWidth : ℚ
  fillColor : String
  opacity : ℚ
  now : String
  rectLeft : ℚ
  rectTop : ℚ
  sqrtA : ℚ → ℚ

/-- The component state of DrawingCanvas together with the store: the
interaction mode flags, the session bookkeeping and the transient
guides. -/
structure EngineState where
  store : Store
  isDrawing : Bool
  isPanning : Bool
  isDragging : Bool
  isResizing : Bool
  isMouseDown : Bool
  resizeHandle : Option Handle
  startPos : Option (ℚ × ℚ)
  lastPanPoint : Option (ℚ × ℚ)
  dragOffset : ℚ × ℚ
  currentPath : List (ℚ × ℚ)
  currentShape : Option CanvasShape
  tempGuides : List GuideLine
  erasedElements : List String

/-- The initial component state: no session active, empty buffers. -/
def initialEngine : EngineState :=
  ⟨initialStore, false, false, false, false, false, none, none, none, (0, 0), [], none, [], []⟩

/-- getCanvasCoordinates: client to canvas space through the viewport
transform. -/
def getCanvasCoordinates (env : Env) (st : Store) (clientX clientY : ℚ) : ℚ × ℚ :=
  ((clientX - env.rectLeft - st.stagePos.1) / st.stageScale,
   (clientY - env.rectTop - st.stagePos.2) / st.stageScale)

/-- findShapeAtPosition: the topmost shape (reverse z-order) whose
axis-aligned bounding box contains the point. -/
def findShapeAtPosition (shapes : List CanvasShape) (x y : ℚ) : Option CanvasShape :=
  shapes.reverse.find? (fun shape =>
    decide (shape.x ≤ x) && decide (x ≤ shape.x + jsOr shape.width 0) &&
    decide (shape.y ≤ y) && decide (y ≤ shape.y + jsOr shape.height 0))

/-- pointToLineDistance again, over the rationals with an abstract square
root, as used by the path hit test of the component. -/
def pointToLineDistanceQ (sqrtA : ℚ → ℚ) (px py x1 y1 x2 y2 : ℚ) : ℚ :=
  let lineLengthSq := (x2 - x1) * (x2 - x1) + (y2 - y1) * (y2 - y1)
  if lineLengthSq = 0 then
    sqrtA ((px - x1) * (px - x1) + (py - y1) * (py - y1))
  else
    let t := max 0 (min 1 (((px - x1) * (x2 - x1) + (py - y1) * (y2 - y1)) / lineLengthSq))
    let projectionX := x1 + t * (x2 - x1)
    let projectionY := y1 + t * (y2 - y1)
    sqrtA ((px - projectionX) * (px - projectionX) + (py - projectionY) * (py - projectionY))

/-- The consecutive point pairs of a flattened coordinate list (stride 2,
while at least four coordinates remain). -/
def segmentsOf : List ℚ → List (ℚ × ℚ × ℚ × ℚ)
  | x1 :: y1 :: rest =>
      match rest with
      | x2 :: y2 :: _ => (x1, y1, x2, y2) :: segmentsOf rest
      | _ => []
  | _ => []

/-- findPathAtPosition: the topmost path with a segment within half the
stroke width (scaled) of the point. -/
def findPathAtPosition (sqrtA : ℚ → ℚ) (stageScale : ℚ) (paths : List CanvasPath)
    (x y : ℚ) : Option CanvasPath :=
  paths.reverse.find? (fun path =>
    (segmentsOf path.points).any (fun seg =>
      let distance := pointToLineDistanceQ sqrtA x y seg.1 seg.2.1 seg.2.2.1 seg.2.2.2
      let hitDistance := path.strokeWidth / 2 / stageScale
      decide (distance ≤ hitDistance)))

/-- getResizeHandle: eight squares of side 8 / stageScale around the
un-rotated bounding box; the first containing the point wins. -/
def getResizeHandle (stageScale : ℚ) (x y : ℚ) (shape : CanvasShape) : Option Handle :=
  let handleSize := 8 / stageScale
  let w := jsOr shape.width 0
  let h := jsOr shape.height 0
  let handles : List (Handle × ℚ × ℚ) :=
    [(Handle.nw, shape.x - handleSize / 2, shape.y - handleSize / 2),
     (Handle.ne, shape.x + w - handleSize / 2, shape.y - handleSize / 2),
     (Handle.sw, shape.x - handleSize / 2, shape.y + h - handleSize / 2),
     (Handle.se, shape.x + w - handleSize / 2, shape.y + h - handleSize / 2),
     (Handle.n, shape.x + w / 2 - handleSize / 2, shape.y - handleSize / 2),
     (Handle.s, shape.x + w / 2 - handleSize / 2, shape.y + h - handleSize / 2),
     (Handle.w, shape.x - handleSize / 2, shape.y + h / 2 - handleSize / 2),
     (Handle.e, shape.x + w - handleSize / 2, shape.y + h / 2 - handleSize / 2)]
  (handles.find? (fun hd =>
    decide (hd.2.1 ≤ x) && decide (x ≤ hd.2.1 + handleSize) &&
    decide (hd.2.2 ≤ y) && decide (y ≤ hd.2.2 + handleSize))).map Prod.fst

/-- The handle scan of handleMouseDown in select mode: the first selected
shape with a handle under the pointer. -/
def findSelectedHandle (st : Store) (x y : ℚ) : Option Handle :=
  st.selectedIds.findSome? (fun id =>
    (st.shapes.find? (fun sh => decide (sh.id = id))).bind
      (fun shape => getResizeHandle st.stageScale x y shape))

/-- handleEraserMouseDown: reset the touched set. -/
def handleEraserMouseDown (s : EngineState) : EngineState :=
  { s with erasedElements := [] }

/-- handleEraserMouseMove: hit-test the point; each newly touched shape
or path gets its opacity reduced by 0.8 (through the collaborative update
wrappers, which in local mode apply updateShape and updatePath) and its
id appended to the touched set, at most once per session.  Both includes
checks read the pre-event touched set, as the source closure does. -/
def handleEraserMouseMove (env : Env) (pos : ℚ × ℚ) (s : EngineState) : EngineState :=
  let hoveredShape := findShapeAtPosition s.store.shapes pos.1 pos.2
  let hoveredPath := findPathAtPosition env.sqrtA s.store.stageScale s.store.paths pos.1 pos.2
  let s1 :=
    match hoveredShape with
    | some sh =>
        if ¬ s.erasedElements.contains sh.id then
          let newOpacity := max 0 (jsOr sh.opacity 1 - 0.8)
          { s with
              store := updateShape sh.id
                { ShapeUpdate.empty with opacity := some (some newOpacity) } s.store,
              erasedElements := s.erasedElements ++ [sh.id] }
        else s
    | none => s
  match hoveredPath with
  | some p =>
      if ¬ s.erasedElements.contains p.id then
        let newOpacity := max 0 (jsOr p.opacity 1 - 0.8)
        { s1 with
            store := updatePath p.id
              { PathUpdate.empty with opacity := some (some newOpacity) } s1.store,
            erasedElements := s1.erasedElements ++ [p.id] }
      else s1
  | none => s1

/-- handleEraserMouseUp: delete every touched id in one batch through the
store and reset the touched set. -/
def handleEraserMouseUp (s : EngineState) : EngineState :=
  { s with store := eraseSelected s.erasedElements s.store, erasedElements := [] }

/-- Spreading a complete shape object over the old one replaces every
field; this is what collaborativeUpdateShape does when handleMouseMove
passes the whole resized shape as the update. -/
def updateShapeObj (id : String) (newShape : CanvasShape) (st : Store) : Store :=
  saveToHistory
    { st with shapes := st.shapes.map (fun sh => if sh.id = id then newShape else sh) }

/-- The per-handle geometry of the resizing branch of handleMouseMove. -/
def resizeShape (handle : Handle) (shape : CanvasShape) (deltaX deltaY : ℚ) : CanvasShape :=
  match handle with
  | Handle.se => { shape with width := some (jsOr shape.width 0 + deltaX),
                              height := some (jsOr shape.height 0 + deltaY) }
  | Handle.sw => { shape with x := shape.x + deltaX,
                              width := some (jsOr shape.width 0 - deltaX),
                              height := some (jsOr shape.height 0 + deltaY) }
  | Handle.ne => { shape with y := shape.y + deltaY,
                              width := some (jsOr shape.width 0 + deltaX),
                              height := some (jsOr shape.height 0 - deltaY) }
  | Handle.nw => { shape with x := shape.x + deltaX, y := shape.y + deltaY,
                              width := some (jsOr shape.width 0 - deltaX),
                              height := some (jsOr shape.height 0 - deltaY) }
  | Handle.n => { shape with y := shape.y + deltaY,
                             height := some (jsOr shape.height 0 - deltaY) }
  | Handle.s => { shape with height := some (jsOr shape.height 0 + deltaY) }
  | Handle.w => { shape with x := shape.x + deltaX,
                             width := some (jsOr shape.width 0 - deltaX) }
  | Handle.e => { shape with width := some (jsOr shape.width 0 + deltaX) }

/-- The tail of handleMouseMove: freehand drawing appends the point to
the path buffer; shape drawing recomputes the pending size or endpoint
from the snapped position. -/
def moveDrawing (env : Env) (pos : ℚ × ℚ) (s : EngineState) : EngineState :=
  if s.isDrawing = false then s
  else if env.tool = Tool.pen then
    { s with currentPath := s.currentPath ++ [pos] }
  else
    match s.currentShape, s.startPos with
    | some cs, some sp =>
        let r := applySnapping env.snapEnabled env.snapDistance s.store.stageScale env.now
          s.store.shapes pos.1 pos.2 (some cs)
        let updatedShape :=
          if env.tool = Tool.rectangle ∨ env.tool = Tool.circle then
            { cs with width := some (r.x - sp.1), height := some (r.y - sp.2) }
          else if env.tool = Tool.arrow ∨ env.tool = Tool.line then
            { cs with points := some [sp.1, sp.2, r.x, r.y] }
          else cs
        { s with currentShape := some updatedShape, tempGuides := r.guides.getD s.tempGuides }
    | _, _ => s

/-- The dragging branch of handleMouseMove: snap the pointer minus the
drag offset, write the same snapped coordinate to every selected shape
that exists in the render snapshot (each write is one updateShape), and
advance the session start position. -/
def moveDragging (env : Env) (pos : ℚ × ℚ) (s : EngineState) : EngineState :=
  match s.startPos with
  | some _ =>
      if s.isDragging = true ∧ 0 < s.store.selectedIds.length then
        let r := applySnapping env.snapEnabled env.snapDistance s.store.stageScale env.now
          s.store.shapes (pos.1 - s.dragOffset.1) (pos.2 - s.dragOffset.2) none
        let store1 := s.store.selectedIds.foldl
          (fun st id =>
            if (s.store.shapes.find? (fun sh => decide (sh.id = id))).isSome then
              updateShape id { ShapeUpdate.empty with x := some r.x, y := some r.y } st
            else st)
          s.store
        { s with store := store1,
                 startPos := some (r.x + s.dragOffset.1, r.y + s.dragOffset.2),
                 tempGuides := r.guides.getD s.tempGuides }
      else moveDrawing env pos s
  | none => moveDrawing env pos s

/-- The resizing branch of handleMouseMove: with one selected shape,
apply the handle geometry to the pointer delta and write the whole shape
back through updateShape. -/
def moveResize (env : Env) (pos : ℚ × ℚ) (s : EngineState) : EngineState :=
  match s.isResizing, s.resizeHandle, s.startPos with
  | true, some handle, some sp =>
      if s.store.selectedIds.length = 1 then
        match s.store.shapes.find?
            (fun sh => decide (sh.id = s.store.selectedIds.headD "")) with
        | some shape =>
            { s with
                store := updateShapeObj (s.store.selectedIds.headD "")
                  (resizeShape handle shape (pos.1 - sp.1) (pos.2 - sp.2)) s.store,
                startPos := some pos }
        | none => s
      else moveDragging env pos s
  | _, _, _ => moveDragging env pos s

/-- handleMouseMove: clear the guides when no session is active, then
dispatch in the source priority order to the eraser sweep, panning,
resizing, dragging or drawing branch. -/
def handleMouseMove (env : Env) (clientX clientY : ℚ) (s0 : EngineState) : EngineState :=
  let s :=
    if s0.isDragging = false ∧ s0.isResizing = false ∧ s0.isDrawing = false then
      { s0 with tempGuides := [] }
    else s0
  if env.tool = Tool.eraser ∧ s.isMouseDown = true then
    handleEraserMouseMove env (getCanvasCoordinates env s.store clientX clientY) s
  else
    match s.isPanning, s.lastPanPoint with
    | true, some lp =>
        { s with
            store := setStagePos
              (s.store.stagePos.1 + (clientX - lp.1), s.store.stagePos.2 + (clientY - lp.2))
              s.store,
            lastPanPoint := some (clientX, clientY) }
    | _, _ => moveResize env (getCanvasCoordinates env s.store clientX clientY) s

/-- handleMouseDown: record the pressed button, then dispatch on the
active tool in source order: pan, eraser, select (handle scan, then
shape hit, then selection clearing), pen, text (external inline editor
only), shape tools (pending zero-size shape anchored at the snapped
position). -/
def handleMouseDown (env : Env) (clientX clientY : ℚ) (s0 : EngineState) : EngineState :=
  let s := { s0 with isMouseDown := true }
  let pos := getCanvasCoordinates env s.store clientX clientY
  if env.tool = Tool.hand then
    { s with isPanning := true, lastPanPoint := some (clientX, clientY) }
  else if env.tool = Tool.eraser then
    handleEraserMouseDown s
  else if env.tool = Tool.select then
    match findSelectedHandle s.store pos.1 pos.2 with
    | some h =>
        { s with isResizing := true, resizeHandle := some h, startPos := some pos }
    | none =>
        match findShapeAtPosition s.store.shapes pos.1 pos.2 with
        | some clickedShape =>
            let selStore :=
              if s.store.selectedIds.contains clickedShape.id then s.store
              else if env.shiftKey then
                setSelectedIds (s.store.selectedIds ++ [clickedShape.id]) s.store
              else setSelectedIds [clickedShape.id] s.store
            { s with store := selStore, isDragging := true, startPos := some pos,
                     dragOffset := (pos.1 - clickedShape.x, pos.2 - clickedShape.y) }
        | none =>
            if ¬ env.shiftKey then { s with store := clearSelection s.store } else s
  else if env.tool = Tool.pen then
    { s with isDrawing := true, currentPath := [pos] }
  else if env.tool = Tool.text then
    s
  else if env.tool = Tool.rectangle ∨ env.tool = Tool.circle ∨
      env.tool = Tool.arrow ∨ env.tool = Tool.line then
    let r := applySnapping env.snapEnabled env.snapDistance s.store.stageScale env.now
      s.store.shapes pos.1 pos.2 none
    { s with
        tempGuides := r.guides.getD s.tempGuides,
        isDrawing := true,
        startPos := some pos,
        currentShape := some
          { id := env.now
            type :=
              if env.tool = Tool.rectangle then ShapeType.rectangle
              else if env.tool = Tool.circle then ShapeType.circle
              else if env.tool = Tool.arrow then ShapeType.arrow
              else ShapeType.line
            x := r.x
            y := r.y
            width := some 0
            height := some 0
            radius := none
            text := none
            fontSize := none
            fontFamily := none
            backgroundColor := none
            isbold := none
            isitalic := none
            isunderline := none
            isstrikethrough := none
            points :=
              if env.tool = Tool.arrow ∨ env.tool = Tool.line
              then some [r.x, r.y, r.x, r.y] else none
            stroke := env.strokeColor
            strokeWidth := env.strokeWidth
            fill :=
              if env.tool = Tool.rectangle ∨ env.tool = Tool.circle
              then some env.fillColor else none
            opacity := some env.opacity
            rotation := 0
            src := none
            filter := none } }
  else s

/-- handleMouseUp: finish an eraser sweep, unconditionally reset the
panning, dragging and resizing flags and the transient guides, then
finish a drawing session: the pen buffer is committed whenever it is
nonempty, and a pending shape is committed when it has nonzero size. -/
def handleMouseUp (env : Env) (s0 : EngineState) : EngineState :=
  let s1 := { s0 with isMouseDown := false }
  let s2 := if env.tool = Tool.eraser then handleEraserMouseUp s1 else s1
  let s := { s2 with isPanning := false, isDragging := false, isResizing := false,
                     resizeHandle := none, lastPanPoint := none, tempGuides := [] }
  if s.isDrawing = false then s
  else
    let s3 := { s with isDrawing := false }
    if env.tool = Tool.pen ∧ 0 < s3.currentPath.length then
      { s3 with
          store := addPath
            { id := env.now
              points := s3.currentPath.foldr (fun p acc => p.1 :: p.2 :: acc) []
              stroke := env.strokeColor
              strokeWidth := env.strokeWidth
              fill := none
              opacity := some env.opacity } s3.store,
          currentPath := [],
          startPos := none }
    else
      match s3.currentShape with
      | some cs =>
          let hasSize : Bool :=
            decide (¬ cs.width = some 0) || decide (¬ cs.height = some 0) ||
            (match cs.points with
             | some [x1, y1, x2, y2] => decide (¬ x1 = x2) || decide (¬ y1 = y2)
             | _ => false)
          if hasSize then
            { s3 with store := addShape cs s3.store, currentShape := none, startPos := none }
          else
            { s3 with currentShape := none, startPos := none }
      | none => { s3 with startPos := none }

/-- The number of active interaction mode flags. -/
def modeCount (s : EngineState) : ℕ :=
  (if s.isPanning then 1 else 0) + (if s.isDragging then 1 else 0) +
  (if s.isResizing then 1 else 0) + (if s.isDrawing then 1 else 0)

/-- No interaction mode is active. -/
def Idle (s : EngineState) : Prop :=
  s.isPanning = false ∧ s.isDragging = false ∧ s.isResizing = false ∧ s.isDrawing = false

/-- Engine states reachable under the pointer contract of the spec: each
press is eventually released before the next press (and pointer-up
provably returns to idle), so pointer-down fires from idle; moves and
releases can fire at any time; each event reads its own environment. -/
inductive EngineReach : EngineState → Prop
  | init : EngineReach initialEngine
  | down (env : Env) (clientX clientY : ℚ) {s : EngineState} :
      EngineReach s → Idle s → EngineReach (handleMouseDown env clientX clientY s)
  | move (env : Env) (clientX clientY : ℚ) {s : EngineState} :
      EngineReach s → EngineReach (handleMouseMove env clientX clientY s)
  | up (env : Env) {s : EngineState} :
      EngineReach s → EngineReach (handleMouseUp env s)

/-- A concrete environment for witnesses: pen tool, defaults, abstract
square root instantiated by the zero function. -/
def demoEnv : Env :=
  ⟨Tool.pen, false, true, 1, "#000000", 2, "transparent", 1, "0", 0, 0, fun _ => 0⟩

/-- A concrete environment for the eraser witnesses. -/
def eraserEnv : Env :=
  ⟨Tool.eraser, false, true, 1, "#000000", 2, "transparent", 1, "1", 0, 0, fun _ => 0⟩

/-- A pen session holding a single buffered point. -/
def penOnePointEngine : EngineState :=
  { initialEngine with isDrawing := true, currentPath := [(3, 4)] }

/-- A pen session holding two buffered points. -/
def penTwoPointEngine : EngineState :=
  { initialEngine with isDrawing := true, currentPath := [(3, 4), (5, 6)] }

/-- An eraser session that has touched two overlapping shapes. -/
def eraserEngine : EngineState :=
  { initialEngine with
      store :=
        { initialStore with
            shapes := [demoShape "a" 0 0 10 10, demoShape "b" 5 5 10 10],
            history := [⟨[], [demoShape "a" 0 0 10 10, demoShape "b" 5 5 10 10]⟩],
            historyIndex := 0 },
      erasedElements := ["a", "b"] }

/-- Committing a snapshot never changes the content arrays. -/
theorem saveToHistory_paths (s : Store) : (saveToHistory s).paths = s.paths := by
  simp only [saveToHistory]
  split <;> rfl

/-- Committing a snapshot never changes the content arrays. -/
theorem saveToHistory_shapes (s : Store) : (saveToHistory s).shapes = s.shapes := by
  simp only [saveToHistory]
  split <;> rfl

/-- C1: the history log is bounded at 50 entries: a commit truncates
after the cursor, appends the snapshot and advances the cursor, and once
the length would exceed 50 the oldest entry is shifted out without
advancing the cursor; after 60 commits from the empty store the log
length is exactly 50 and 50 undos land on the oldest retained snapshot
(the one of commit 11), which is also entry 0 of the log. -/
theorem history_capacity_evicts_oldest :
    (∀ s : Store,
      ((jsSlice0 s.history (s.historyIndex + 1)).length + 1 ≤ 50 →
        saveToHistory s =
          { s with history :=
              jsSlice0 s.history (s.historyIndex + 1) ++ [HistoryEntry.mk s.paths s.shapes],
                   historyIndex := s.historyIndex + 1 }) ∧
      (50 < (jsSlice0 s.history (s.historyIndex + 1)).length + 1 →
        saveToHistory s =
          { s with history :=
              (jsSlice0 s.history (s.historyIndex + 1) ++
                [HistoryEntry.mk s.paths s.shapes]).drop 1 })) ∧
    commit60.history.length = 50 ∧
    (iterUndo 50 commit60).paths = (List.range 11).map mkPath ∧
    (iterUndo 50 commit60).historyIndex = 0 ∧
    (commit60.history.get? 0).map HistoryEntry.paths = some ((iterUndo 50 commit60).paths) := by
  refine ⟨fun s => ⟨fun h => ?_, fun h => ?_⟩, ?_⟩
  · simp only [saveToHistory]
    rw [if_neg]
    simp only [List.length_append, List.length_singleton]
    omega
  · simp only [saveToHistory]
    rw [if_pos]
    simp only [List.length_append, List.length_singleton]
    omega
  · set_option maxRecDepth 100000 in decide

/-- Witness: the append branch of C1 at the initial empty store. -/
theorem history_capacity_evicts_oldest_witness :
    saveToHistory initialStore =
      { initialStore with
          history :=
            jsSlice0 initialStore.history (initialStore.historyIndex + 1) ++
              [HistoryEntry.mk initialStore.paths initialStore.shapes],
          historyIndex := initialStore.historyIndex + 1 } :=
  (history_capacity_evicts_oldest.1 initialStore).1 (by decide)

/-- C10: immediately after any saveToHistory call on a cursor-bounded
store, the cursor points at the newest entry, in both the normal-append
and the eviction branch, so canRedo is false right after a commit. -/
theorem saveToHistory_cursor_at_newest :
    ∀ s : Store, -1 ≤ s.historyIndex → s.historyIndex < (s.history.length : ℤ) →
      (saveToHistory s).historyIndex = ((saveToHistory s).history.length : ℤ) - 1 ∧
      canRedo (saveToHistory s) = false := by
  intro s h1 h2
  have hs : (jsSlice0 s.history (s.historyIndex + 1)).length = (s.historyIndex + 1).toNat := by
    simp only [jsSlice0]
    rw [if_neg (by omega), List.length_take]
    omega
  simp only [saveToHistory, canRedo]
  split
  next hgt =>
    simp only [List.length_drop, List.length_append, List.length_singleton,
      decide_eq_false_iff_not, not_lt] at *
    omega
  next hle =>
    simp only [List.length_append, List.length_singleton, decide_eq_false_iff_not,
      not_lt] at *
    omega

/-- Witness: C10 at a concrete one-entry store. -/
theorem saveToHistory_cursor_at_newest_witness :
    (saveToHistory demoStore).historyIndex = ((saveToHistory demoStore).history.length : ℤ) - 1 ∧
    canRedo (saveToHistory demoStore) = false :=
  saveToHistory_cursor_at_newest demoStore (by decide) (by decide)

/-- C8: updateShape, deleteShape and deletePath addressed at an id absent
from the model leave both content arrays unchanged (they are total
functions, so nothing is raised). -/
theorem missing_id_mutations_are_noops :
    ∀ (s : Store) (id : String) (u : ShapeUpdate),
      ((∀ sh ∈ s.shapes, sh.id ≠ id) →
        (updateShape id u s).shapes = s.shapes ∧ (updateShape id u s).paths = s.paths ∧
        (deleteShape id s).shapes = s.shapes ∧ (deleteShape id s).paths = s.paths) ∧
      ((∀ p ∈ s.paths, p.id ≠ id) →
        (deletePath id s).paths = s.paths ∧ (deletePath id s).shapes = s.shapes) := by
  intro s id u
  constructor
  · intro hne
    refine ⟨?_, ?_, ?_, ?_⟩
    · rw [updateShape, saveToHistory_shapes]
      calc s.shapes.map (fun sh => if sh.id = id then applyShapeUpdate u sh else sh)
            = s.shapes.map (fun sh => sh) :=
              List.map_congr_left (fun sh hsh => by simp [hne sh hsh])
        _ = s.shapes := List.map_id' s.shapes
    · rw [updateShape, saveToHistory_paths]
    · rw [deleteShape, saveToHistory_shapes]
      exact List.filter_eq_self.mpr (fun sh hsh => by simp [hne sh hsh])
    · rw [deleteShape, saveToHistory_paths]
  · intro hne
    refine ⟨?_, ?_⟩
    · rw [deletePath, saveToHistory_paths]
      exact List.filter_eq_self.mpr (fun p hp => by simp [hne p hp])
    · rw [deletePath, saveToHistory_shapes]

/-- C6: pointToLineDistance is the distance from p to the clamped
projection onto the segment, degenerates to the distance to the start
point when the endpoints coincide, is nonnegative, and vanishes exactly
on the segment. -/
theorem pointToLineDistance_spec :
    ∀ px py x1 y1 x2 y2 : ℝ,
      pointToLineDistance px py x1 y1 x2 y2 =
        Real.sqrt
          ((px - (segProjection px py x1 y1 x2 y2).1) * (px - (segProjection px py x1 y1 x2 y2).1) +
           (py - (segProjection px py x1 y1 x2 y2).2) * (py - (segProjection px py x1 y1 x2 y2).2)) ∧
      (x1 = x2 → y1 = y2 →
        pointToLineDistance px py x1 y1 x2 y2 =
          Real.sqrt ((px - x1) * (px - x1) + (py - y1) * (py - y1))) ∧
      0 ≤ pointToLineDistance px py x1 y1 x2 y2 ∧
      (pointToLineDistance px py x1 y1 x2 y2 = 0 ↔ OnSegment px py x1 y1 x2 y2) := by
  intro px py x1 y1 x2 y2
  refine ⟨?_, ?_, ?_, ?_⟩
  · simp only [pointToLineDistance, segProjection]
    split_ifs with h
    · rfl
    · rfl
  · intro hx hy
    subst hx
    subst hy
    simp only [pointToLineDistance]
    rw [if_pos (by ring)]
  · simp only [pointToLineDistance]
    split_ifs with h
    · exact Real.sqrt_nonneg _
    · exact Real.sqrt_nonneg _
  · simp only [pointToLineDistance]
    split_ifs with h
    · -- degenerate segment: both endpoints coincide
      have hx2 : x2 - x1 = 0 := by
        have := mul_self_nonneg (x2 - x1)
        have := mul_self_nonneg (y2 - y1)
        have : (x2 - x1) * (x2 - x1) = 0 := by nlinarith
        exact mul_self_eq_zero.mp this
      have hy2 : y2 - y1 = 0 := by
        have := mul_self_nonneg (x2 - x1)
        have := mul_self_nonneg (y2 - y1)
        have : (y2 - y1) * (y2 - y1) = 0 := by nlinarith
        exact mul_self_eq_zero.mp this
      constructor
      · intro h0
        have hsum : (px - x1) * (px - x1) + (py - y1) * (py - y1) = 0 := by
          have hnn : 0 ≤ (px - x1) * (px - x1) + (py - y1) * (py - y1) := by
            have := mul_self_nonneg (px - x1)
            have := mul_self_nonneg (py - y1)
            linarith
          exact (Real.sqrt_eq_zero hnn).mp h0
        have hpx : px - x1 = 0 := by
          have := mul_self_nonneg (px - x1)
          have := mul_self_nonneg (py - y1)
          have : (px - x1) * (px - x1) = 0 := by nlinarith
          exact mul_self_eq_zero.mp this
        have hpy : py - y1 = 0 := by
          have := mul_self_nonneg (px - x1)
          have := mul_self_nonneg (py - y1)
          have : (py - y1) * (py - y1) = 0 := by nlinarith
          exact mul_self_eq_zero.mp this
        exact ⟨0, le_refl 0, zero_le_one, by linarith, by linarith⟩
      · rintro ⟨t, ht0, ht1, hpx, hpy⟩
        have hpx0 : px - x1 = 0 := by rw [hpx, hx2]; ring
        have hpy0 : py - y1 = 0 := by rw [hpy, hy2]; ring
        rw [hpx0, hpy0]
        simp [Real.sqrt_eq_zero]
    · -- nondegenerate segment
      set L := (x2 - x1) * (x2 - x1) + (y2 - y1) * (y2 - y1) with hL
      set q := ((px - x1) * (x2 - x1) + (py - y1) * (y2 - y1)) / L with hq
      set t0 := max 0 (min 1 q) with ht0def
      have ht00 : 0 ≤ t0 := le_max_left 0 _
      have ht01 : t0 ≤ 1 := max_le zero_le_one (min_le_left 1 q)
      constructor
      · intro h0
        have hnn : 0 ≤ (px - (x1 + t0 * (x2 - x1))) * (px - (x1 + t0 * (x2 - x1))) +
            (py - (y1 + t0 * (y2 - y1))) * (py - (y1 + t0 * (y2 - y1))) := by
          have := mul_self_nonneg (px - (x1 + t0 * (x2 - x1)))
          have := mul_self_nonneg (py - (y1 + t0 * (y2 - y1)))
          linarith
        have hsum := (Real.sqrt_eq_zero hnn).mp h0
        have hpx : px - (x1 + t0 * (x2 - x1)) = 0 := by
          have := mul_self_nonneg (px - (x1 + t0 * (x2 - x1)))
          have := mul_self_nonneg (py - (y1 + t0 * (y2 - y1)))
          have : (px - (x1 + t0 * (x2 - x1))) * (px - (x1 + t0 * (x2 - x1))) = 0 := by nlinarith
          exact mul_self_eq_zero.mp this
        have hpy : py - (y1 + t0 * (y2 - y1)) = 0 := by
          have := mul_self_nonneg (px - (x1 + t0 * (x2 - x1)))
          have := mul_self_nonneg (py - (y1 + t0 * (y2 - y1)))
          have : (py - (y1 + t0 * (y2 - y1))) * (py - (y1 + t0 * (y2 - y1))) = 0 := by nlinarith
          exact mul_self_eq_zero.mp this
        exact ⟨t0, ht00, ht01, by linarith, by linarith⟩
      · rintro ⟨t, ht0, ht1, hpx, hpy⟩
        have hqt : q = t := by
          rw [hq, hpx, hpy]
          field_simp
          ring
        have hclamp : t0 = t := by
          rw [ht0def, hqt, min_eq_right ht1, max_eq_right ht0]
        have hzx : px - (x1 + t0 * (x2 - x1)) = 0 := by
          rw [hclamp, hpx]; ring
        have hzy : py - (y1 + t0 * (y2 - y1)) = 0 := by
          rw [hclamp, hpy]; ring
        rw [hzx, hzy]
        simp [Real.sqrt_eq_zero]

/-- Witness: the degenerate-segment clause of C6 at concrete inputs. -/
theorem pointToLineDistance_spec_witness :
    pointToLineDistance 3 4 1 1 1 1 = Real.sqrt ((3 - 1) * (3 - 1) + (4 - 1) * (4 - 1)) :=
  (pointToLineDistance_spec 3 4 1 1 1 1).2.1 rfl rfl

/-- The simulated-pressure list has one entry per sample. -/
theorem strokeInputPoints_length (points : List (ℚ × ℚ)) (simulatePressure : Bool) :
    (strokeInputPoints points simulatePressure).length = points.length := by
  simp [strokeInputPoints]

/-- The forward walk emits one point per remaining sample. -/
theorem fwdWalk_length (T : TrigEnv) (size thinning : ℚ) :
    ∀ (prev : ℚ × ℚ × ℚ) (l : List (ℚ × ℚ × ℚ)),
      (fwdWalk T size thinning prev l).length = l.length := by
  intro prev l
  induction l generalizing prev with
  | nil => rfl
  | cons cur rest ih => simp [fwdWalk, ih]

/-- The backward walk emits one point per remaining sample. -/
theorem bwdWalk_length (T : TrigEnv) (size thinning : ℚ) :
    ∀ (prev : ℚ × ℚ × ℚ) (l : List (ℚ × ℚ × ℚ)),
      (bwdWalk T size thinning prev l).length = l.length := by
  intro prev l
  induction l generalizing prev with
  | nil => rfl
  | cons cur rest ih => simp [bwdWalk, ih]

/-- The outline point count of getStroke: zero for an empty input and
2n + 1 for n samples otherwise (n + 1 on the forward rail, n on the
backward rail). -/
theorem getStroke_length (T : TrigEnv) (points : List (ℚ × ℚ)) (size thinning : ℚ)
    (simulatePressure : Bool) :
    (getStroke T points size thinning simulatePressure).length =
      if points.length = 0 then 0 else 2 * points.length + 1 := by
  have hinput := strokeInputPoints_length points simulatePressure
  cases hc : strokeInputPoints points simulatePressure with
  | nil =>
      have h0 : points.length = 0 := by rw [← hinput, hc]; rfl
      rw [if_pos h0]
      simp only [getStroke, hc, forwardRail, backwardRail]
      rfl
  | cons first rest =>
      have hlen : points.length = rest.length + 1 := by
        rw [← hinput, hc]
        rfl
      rw [if_neg (by omega)]
      simp only [getStroke, hc, forwardRail, backwardRail, List.length_append,
        List.length_cons, List.length_reverse, fwdWalk_length, bwdWalk_length]
      omega

/-- C3 counterexample: a single-point input does not yield an empty
outline; getStroke emits the two cap points and one backward point. -/
theorem getStroke_single_point_not_empty :
    (getStroke trigZero [((0 : ℚ), (0 : ℚ))] 8 (1 / 2) true).length = 3 := by
  decide

/-- C3 amended: an empty input yields an empty outline, the outline point
count is 0 for empty input and 2n + 1 for n greater or equal 1 samples
(so a single-point input yields 3 points rather than an empty polygon),
and for fixed options the outline point count is monotonically
non-decreasing in the sample count. -/
theorem getStroke_count_spec :
    ∀ (T : TrigEnv) (size thinning : ℚ) (simulatePressure : Bool)
      (pts pts2 : List (ℚ × ℚ)),
      getStroke T [] size thinning simulatePressure = [] ∧
      (getStroke T pts size thinning simulatePressure).length =
        (if pts.length = 0 then 0 else 2 * pts.length + 1) ∧
      (pts.length ≤ pts2.length →
        (getStroke T pts size thinning simulatePressure).length ≤
          (getStroke T pts2 size thinning simulatePressure).length) := by
  intro T size thinning simulatePressure pts pts2
  refine ⟨rfl, getStroke_length T pts size thinning simulatePressure, fun hle => ?_⟩
  rw [getStroke_length, getStroke_length]
  split_ifs with h1 h2 h2
  · omega
  · omega
  · omega
  · omega

/-- Witness: C3 amended at one and two samples with concrete options. -/
theorem getStroke_count_spec_witness :
    (getStroke trigZero [((0 : ℚ), (0 : ℚ))] 8 (1 / 2) true).length ≤
      (getStroke trigZero [((0 : ℚ), (0 : ℚ)), ((1 : ℚ), (1 : ℚ))] 8 (1 / 2) true).length :=
  (getStroke_count_spec trigZero 8 (1 / 2) true [((0 : ℚ), (0 : ℚ))]
    [((0 : ℚ), (0 : ℚ)), ((1 : ℚ), (1 : ℚ))]).2.2 (by decide)

/-- Committing from a cursor-bounded store restores the full invariant. -/
theorem inv_saveToHistory (s : Store) (h1 : -1 ≤ s.historyIndex)
    (h2 : s.historyIndex < (s.history.length : ℤ)) (h3 : s.history.length ≤ 50) :
    Inv (saveToHistory s) := by
  have hslice : (jsSlice0 s.history (s.historyIndex + 1)).length = (s.historyIndex + 1).toNat := by
    simp only [jsSlice0]
    rw [if_neg (by omega), List.length_take]
    omega
  have hconcat :
      (jsSlice0 s.history (s.historyIndex + 1) ++ [HistoryEntry.mk s.paths s.shapes]).get?
        (jsSlice0 s.history (s.historyIndex + 1)).length = some (HistoryEntry.mk s.paths s.shapes) :=
    List.get?_concat_length _ _
  simp only [saveToHistory]
  split
  next hgt =>
    simp only [List.length_append, List.length_singleton] at hgt
    refine ⟨?_, ?_, ?_, ?_, ?_⟩
    · show s.historyIndex <
        ((((jsSlice0 s.history (s.historyIndex + 1) ++
          [HistoryEntry.mk s.paths s.shapes]).drop 1).length : ℤ))
      simp only [List.length_drop, List.length_append, List.length_singleton]
      omega
    · show -1 ≤ s.historyIndex
      omega
    · show ((jsSlice0 s.history (s.historyIndex + 1) ++
        [HistoryEntry.mk s.paths s.shapes]).drop 1).length ≤ 50
      simp only [List.length_drop, List.length_append, List.length_singleton]
      omega
    · intro _
      have hidx : s.historyIndex.toNat = (s.historyIndex + 1).toNat - 1 := by omega
      show ((jsSlice0 s.history (s.historyIndex + 1) ++
          [HistoryEntry.mk s.paths s.shapes]).drop 1).get? s.historyIndex.toNat =
        some (HistoryEntry.mk s.paths s.shapes)
      rw [List.get?_drop, hidx]
      have : 1 + ((s.historyIndex + 1).toNat - 1) = (s.historyIndex + 1).toNat := by omega
      rw [this, ← hslice]
      exact hconcat
    · intro habs
      exfalso
      have : s.historyIndex = -1 := habs
      omega
  next hle =>
    simp only [List.length_append, List.length_singleton] at hle
    refine ⟨?_, ?_, ?_, ?_, ?_⟩
    · show s.historyIndex + 1 <
        (((jsSlice0 s.history (s.historyIndex + 1) ++
          [HistoryEntry.mk s.paths s.shapes]).length : ℤ))
      simp only [List.length_append, List.length_singleton]
      omega
    · show -1 ≤ s.historyIndex + 1
      omega
    · show (jsSlice0 s.history (s.historyIndex + 1) ++
        [HistoryEntry.mk s.paths s.shapes]).length ≤ 50
      simp only [List.length_append, List.length_singleton]
      omega
    · intro _
      have hidx : (s.historyIndex + 1).toNat = (jsSlice0 s.history (s.historyIndex + 1)).length := by
        omega
      show (jsSlice0 s.history (s.historyIndex + 1) ++
          [HistoryEntry.mk s.paths s.shapes]).get? (s.historyIndex + 1).toNat =
        some (HistoryEntry.mk s.paths s.shapes)
      rw [hidx]
      exact hconcat
    · intro habs
      exfalso
      have : s.historyIndex + 1 = -1 := habs
      omega

/-- Undo preserves the history invariant. -/
theorem inv_undo (s : Store) (ih : Inv s) : Inv (undo s) := by
  obtain ⟨h1, h2, h3, h4, h5⟩ := ih
  by_cases hpos : s.historyIndex > 0
  · cases hg : s.history.get? (s.historyIndex - 1).toNat with
    | none =>
        rw [undo, if_pos hpos, hg]
        exact ⟨h1, h2, h3, h4, h5⟩
    | some prev =>
        rw [undo, if_pos hpos, hg]
        refine ⟨?_, ?_, h3, fun _ => ?_, fun habs => ?_⟩
        · show s.historyIndex - 1 < (s.history.length : ℤ)
          omega
        · show -1 ≤ s.historyIndex - 1
          omega
        · show s.history.get? (s.historyIndex - 1).toNat =
            some (HistoryEntry.mk prev.paths prev.shapes)
          rw [hg]
        · exfalso
          have : s.historyIndex - 1 = -1 := habs
          omega
  · rw [undo, if_neg hpos]
    exact ⟨h1, h2, h3, h4, h5⟩

/-- Redo preserves the history invariant. -/
theorem inv_redo (s : Store) (ih : Inv s) : Inv (redo s) := by
  obtain ⟨h1, h2, h3, h4, h5⟩ := ih
  by_cases hlt : s.historyIndex < (s.history.length : ℤ) - 1
  · cases hg : s.history.get? (s.historyIndex + 1).toNat with
    | none =>
        rw [redo, if_pos hlt, hg]
        exact ⟨h1, h2, h3, h4, h5⟩
    | some nxt =>
        rw [redo, if_pos hlt, hg]
        refine ⟨?_, ?_, h3, fun _ => ?_, fun habs => ?_⟩
        · show s.historyIndex + 1 < (s.history.length : ℤ)
          omega
        · show -1 ≤ s.historyIndex + 1
          omega
        · show s.history.get? (s.historyIndex + 1).toNat =
            some (HistoryEntry.mk nxt.paths nxt.shapes)
          rw [hg]
        · exfalso
          have : s.historyIndex + 1 = -1 := habs
          omega
  · rw [redo, if_neg hlt]
    exact ⟨h1, h2, h3, h4, h5⟩

/-- Every reachable store satisfies the history invariant. -/
theorem inv_reach : ∀ s : Store, Reach s → Inv s := by
  intro s h
  induction h with
  | init => exact ⟨by decide, by decide, by decide, by decide, by decide⟩
  | load p sh =>
      exact ⟨by simp [loadedStore], by simp [loadedStore], by simp [loadedStore],
        fun _ => rfl, by simp [loadedStore]⟩
  | stepAddPath p hr ih => exact inv_saveToHistory _ ih.2.1 ih.1 ih.2.2.1
  | stepAddShape sh hr ih => exact inv_saveToHistory _ ih.2.1 ih.1 ih.2.2.1
  | stepUpdateShape id u hr ih => exact inv_saveToHistory _ ih.2.1 ih.1 ih.2.2.1
  | stepUpdatePath id u hr ih => exact inv_saveToHistory _ ih.2.1 ih.1 ih.2.2.1
  | stepDeleteShape id hr ih => exact inv_saveToHistory _ ih.2.1 ih.1 ih.2.2.1
  | stepDeletePath id hr ih => exact inv_saveToHistory _ ih.2.1 ih.1 ih.2.2.1
  | stepClearPaths hr ih => exact inv_saveToHistory _ ih.2.1 ih.1 ih.2.2.1
  | stepClearShapes hr ih => exact inv_saveToHistory _ ih.2.1 ih.1 ih.2.2.1
  | stepClearCanvas hr ih => exact inv_saveToHistory _ ih.2.1 ih.1 ih.2.2.1
  | stepDeleteSelected hr ih => exact inv_saveToHistory _ ih.2.1 ih.1 ih.2.2.1
  | stepEraseSelected ids hr ih => exact inv_saveToHistory _ ih.2.1 ih.1 ih.2.2.1
  | stepLoadData p sh hr ih => exact inv_saveToHistory _ ih.2.1 ih.1 ih.2.2.1
  | stepSetSelectedIds ids hr ih => exact ih
  | stepAddToSelection id hr ih =>
      unfold addToSelection
      split
      · exact ih
      · exact ih
  | stepRemoveFromSelection id hr ih => exact ih
  | stepClearSelection hr ih => exact ih
  | stepSetStagePos p hr ih => exact ih
  | stepSetStageScale q hr ih => exact ih
  | stepUndo hr ih => exact inv_undo _ ih
  | stepRedo hr ih => exact inv_redo _ ih

/-- Evaluation lemma for undo at an in-range cursor. -/
theorem undo_of_get (s : Store) (hpos : s.historyIndex > 0) (e : HistoryEntry)
    (he : s.history.get? (s.historyIndex - 1).toNat = some e) :
    undo s = { s with paths := e.paths, shapes := e.shapes,
                      historyIndex := s.historyIndex - 1, selectedIds := [] } := by
  rw [undo, if_pos hpos, he]

/-- Evaluation lemma for redo at an in-range cursor. -/
theorem redo_of_get (s : Store) (hlt : s.historyIndex < (s.history.length : ℤ) - 1)
    (e : HistoryEntry) (he : s.history.get? (s.historyIndex + 1).toNat = some e) :
    redo s = { s with paths := e.paths, shapes := e.shapes,
                      historyIndex := s.historyIndex + 1, selectedIds := [] } := by
  rw [redo, if_pos hlt, he]

/-- C7: from any reachable store in which redo is enabled, redo followed
by undo restores the content arrays exactly. -/
theorem redo_undo_restores_state :
    ∀ s : Store, Reach s → canRedo s = true →
      (undo (redo s)).paths = s.paths ∧ (undo (redo s)).shapes = s.shapes := by
  intro s hr hcr
  obtain ⟨h1, h2, h3, h4, h5⟩ := inv_reach s hr
  simp only [canRedo, decide_eq_true_eq] at hcr
  have hge : 0 ≤ s.historyIndex := by
    rcases lt_or_ge s.historyIndex 0 with hlt | hge
    · have hm1 : s.historyIndex = -1 := by omega
      have hnil := h5 hm1
      rw [hnil] at hcr
      simp at hcr
      omega
    · exact hge
  obtain ⟨nxt, hg⟩ : ∃ nxt, s.history.get? (s.historyIndex + 1).toNat = some nxt := by
    cases hgo : s.history.get? (s.historyIndex + 1).toNat with
    | none =>
        exfalso
        rw [List.get?_eq_none] at hgo
        omega
    | some nxt => exact ⟨nxt, rfl⟩
  rw [redo_of_get s hcr nxt hg]
  rw [undo_of_get _ (by show (0 : ℤ) < s.historyIndex + 1; omega) (HistoryEntry.mk s.paths s.shapes)
    (by show s.history.get? (s.historyIndex + 1 - 1).toNat = _
        have hi : s.historyIndex + 1 - 1 = s.historyIndex := by ring
        rw [hi]
        exact h4 hge)]
  exact ⟨rfl, rfl⟩

/-- Witness: C7 at a concrete reachable store (two commits then undo). -/
theorem redo_undo_restores_state_witness :
    canRedo (undo (addPath (mkPath 1) (addPath (mkPath 0) initialStore))) = true ∧
    (undo (redo (undo (addPath (mkPath 1) (addPath (mkPath 0) initialStore))))).paths =
      (undo (addPath (mkPath 1) (addPath (mkPath 0) initialStore))).paths := by
  have h := redo_undo_restores_state _
    (Reach.stepUndo (Reach.stepAddPath (mkPath 1) (Reach.stepAddPath (mkPath 0) Reach.init)))
    (by decide)
  exact ⟨by decide, h.1⟩

/-- Witness: C8 at a concrete store and an absent id. -/
theorem missing_id_mutations_are_noops_witness :
    ((updateShape "z" ShapeUpdate.empty demoStore).shapes = demoStore.shapes ∧
      (deleteShape "z" demoStore).shapes = demoStore.shapes) ∧
    (deletePath "z" demoStore).paths = demoStore.paths := by
  have h := missing_id_mutations_are_noops demoStore "z" ShapeUpdate.empty
  have h1 := h.1 (by decide)
  have h2 := h.2 (by decide)
  exact ⟨⟨h1.1, h1.2.2.1⟩, h2.1⟩

/-- The snapping reduce stays at Infinity when every candidate is out of
tolerance. -/
theorem snapFold_none_of_far (x tol : ℚ) :
    ∀ vals : List ℚ, (∀ w ∈ vals, tol < |x - w|) →
      vals.foldl (snapStep x tol) none = none := by
  intro vals h
  induction vals with
  | nil => rfl
  | cons w rest ih =>
      have hw := h w (List.mem_cons_self w rest)
      rw [List.foldl_cons]
      have hstep : snapStep x tol none w = none := by
        simp [snapStep, not_le.mpr hw]
      rw [hstep]
      exact ih (fun u hu => h u (List.mem_cons_of_mem _ hu))

/-- Once the accumulator holds a value at minimal distance, the snapping
reduce keeps it. -/
theorem snapFold_absorb (x tol v : ℚ) :
    ∀ vals : List ℚ, (∀ w ∈ vals, |x - v| ≤ |x - w|) →
      vals.foldl (snapStep x tol) (some v) = some v := by
  intro vals h
  induction vals with
  | nil => rfl
  | cons w rest ih =>
      have hw := h w (List.mem_cons_self w rest)
      rw [List.foldl_cons]
      have hstep : snapStep x tol (some v) w = some v := by
        simp [snapStep, not_lt.mpr hw]
      rw [hstep]
      exact ih (fun u hu => h u (List.mem_cons_of_mem _ hu))

/-- The snapping reduce returns the strictly closest in-tolerance
candidate, starting from any accumulator that is farther away. -/
theorem snapFold_min (x tol v : ℚ) :
    ∀ (vals : List ℚ) (acc : Option ℚ),
      v ∈ vals →
      |x - v| ≤ tol →
      (∀ w ∈ vals, |x - v| ≤ |x - w|) →
      (∀ w ∈ vals, |x - w| = |x - v| → w = v) →
      (acc = none ∨ ∃ c, acc = some c ∧ |x - v| < |x - c|) →
      vals.foldl (snapStep x tol) acc = some v := by
  intro vals
  induction vals with
  | nil =>
      intro acc hmem
      exact absurd hmem (List.not_mem_nil v)
  | cons w rest ih =>
      intro acc hmem htol hmin huniq hacc
      by_cases hwv : w = v
      · have hstep : snapStep x tol acc w = some w := by
          rcases hacc with hnone | ⟨c, hc, hlt⟩
          · subst hnone
            simp [snapStep, hwv, htol]
          · subst hc
            simp [snapStep, hwv, htol, hlt]
        rw [List.foldl_cons, hstep, hwv]
        exact snapFold_absorb x tol v rest
          (fun u hu => hmin u (List.mem_cons_of_mem _ hu))
      · have hvrest : v ∈ rest := by
          rcases List.mem_cons.mp hmem with h1 | h2
          · exact absurd h1.symm hwv
          · exact h2
        have hwmem : w ∈ w :: rest := List.mem_cons_self w rest
        have hnext : snapStep x tol acc w = some w ∨ snapStep x tol acc w = acc := by
          simp only [snapStep]
          split
          · exact Or.inl rfl
          · exact Or.inr rfl
        have hstrict : |x - v| < |x - w| := by
          rcases lt_or_eq_of_le (hmin w hwmem) with hlt | heq
          · exact hlt
          · exact absurd (huniq w hwmem heq.symm) hwv
        rcases hnext with he | he
        · rw [List.foldl_cons, he]
          exact ih (some w) hvrest htol
            (fun u hu => hmin u (List.mem_cons_of_mem _ hu))
            (fun u hu hq => huniq u (List.mem_cons_of_mem _ hu) hq)
            (Or.inr ⟨w, rfl, hstrict⟩)
        · rw [List.foldl_cons, he]
          exact ih acc hvrest htol
            (fun u hu => hmin u (List.mem_cons_of_mem _ hu))
            (fun u hu hq => huniq u (List.mem_cons_of_mem _ hu) hq)
            hacc

/-- The X-axis reduce is the generic fold over the X coordinates. -/
theorem snapReduceX_eq (x tol : ℚ) (pts : List (ℚ × ℚ)) :
    snapReduceX x tol pts = (pts.map Prod.fst).foldl (snapStep x tol) none :=
  (List.foldl_map Prod.fst (snapStep x tol) pts none).symm

/-- The Y-axis reduce is the generic fold over the Y coordinates. -/
theorem snapReduceY_eq (y tol : ℚ) (pts : List (ℚ × ℚ)) :
    snapReduceY y tol pts = (pts.map Prod.snd).foldl (snapStep y tol) none :=
  (List.foldl_map Prod.snd (snapStep y tol) pts none).symm

/-- The snap points of the single demo rectangle, evaluated. -/
theorem demo_snap_points :
    getAllSnapPoints [demoShape "a" 0 0 10 10] none =
      [(0, 0), (10, 0), (0, 10), (10, 10), (5, 5), (5, 0), (5, 10), (0, 5), (10, 5)] := by
  simp only [getAllSnapPoints, shapeSnapPoints, demoShape, List.map_cons, List.map_nil]
  norm_num

/-- C4 counterexample: with the component defaults (snapDistance 1) at
scale 1, a candidate 5px from the corner (10, 10) of the only shape does
not snap: both coordinates are returned unchanged and no guide is
emitted, contrary to the claimed 5px snap. -/
theorem applySnapping_5px_from_corner_no_snap :
    applySnapping true 1 1 "0" [demoShape "a" 0 0 10 10] 15 15 none =
      SnapResult.mk 15 15 (some []) := by
  have hfar1 : ∀ w ∈ (getAllSnapPoints [demoShape "a" 0 0 10 10] none).map Prod.fst,
      (1 : ℚ) / 1 < |15 - w| := by
    rw [demo_snap_points]
    intro w hw
    fin_cases hw <;> norm_num [abs_of_nonneg, abs_of_nonpos]
  have hfar2 : ∀ w ∈ (getAllSnapPoints [demoShape "a" 0 0 10 10] none).map Prod.snd,
      (1 : ℚ) / 1 < |15 - w| := by
    rw [demo_snap_points]
    intro w hw
    fin_cases hw <;> norm_num [abs_of_nonneg, abs_of_nonpos]
  have hX : snapReduceX 15 (1 / 1) (getAllSnapPoints [demoShape "a" 0 0 10 10] none) = none := by
    rw [snapReduceX_eq]
    exact snapFold_none_of_far 15 (1 / 1) _ hfar1
  have hY : snapReduceY 15 (1 / 1) (getAllSnapPoints [demoShape "a" 0 0 10 10] none) = none := by
    rw [snapReduceY_eq]
    exact snapFold_none_of_far 15 (1 / 1) _ hfar2
  simp only [applySnapping, Bool.not_true]
  rw [if_neg (by simp), hX, hY]
  rfl

/-- C4 amended: with snapping enabled, per axis the candidate snaps to
the strictly closest snap-point coordinate when it is within
snapDistance / stageScale (with the default snapDistance of 1 and scale
1, a tolerance of 1px, not 5px), and exactly one guide is emitted per
snapped axis; when every snap point is out of tolerance on both axes
(for example 5px or 50px away at the default tolerance), both
coordinates are unchanged and no guide is emitted. -/
theorem applySnapping_spec :
    ∀ (snapDistance stageScale : ℚ) (now : String) (shapes : List CanvasShape)
      (x y px py : ℚ),
      (px ∈ (getAllSnapPoints shapes none).map Prod.fst →
       |x - px| ≤ snapDistance / stageScale →
       (∀ w ∈ (getAllSnapPoints shapes none).map Prod.fst, |x - px| ≤ |x - w|) →
       (∀ w ∈ (getAllSnapPoints shapes none).map Prod.fst, |x - w| = |x - px| → w = px) →
       py ∈ (getAllSnapPoints shapes none).map Prod.snd →
       |y - py| ≤ snapDistance / stageScale →
       (∀ w ∈ (getAllSnapPoints shapes none).map Prod.snd, |y - py| ≤ |y - w|) →
       (∀ w ∈ (getAllSnapPoints shapes none).map Prod.snd, |y - w| = |y - py| → w = py) →
       applySnapping true snapDistance stageScale now shapes x y none =
         SnapResult.mk px py
           (some [GuideLine.mk ("temp-v-" ++ now) GuideType.vertical px (some true),
                  GuideLine.mk ("temp-h-" ++ now) GuideType.horizontal py (some true)])) ∧
      ((∀ w ∈ (getAllSnapPoints shapes none).map Prod.fst,
          snapDistance / stageScale < |x - w|) →
       (∀ w ∈ (getAllSnapPoints shapes none).map Prod.snd,
          snapDistance / stageScale < |y - w|) →
       applySnapping true snapDistance stageScale now shapes x y none =
         SnapResult.mk x y (some [])) := by
  intro snapDistance stageScale now shapes x y px py
  constructor
  · intro hx1 hx2 hx3 hx4 hy1 hy2 hy3 hy4
    have hX : snapReduceX x (snapDistance / stageScale) (getAllSnapPoints shapes none) =
        some px := by
      rw [snapReduceX_eq]
      exact snapFold_min x _ px _ none hx1 hx2 hx3 hx4 (Or.inl rfl)
    have hY : snapReduceY y (snapDistance / stageScale) (getAllSnapPoints shapes none) =
        some py := by
      rw [snapReduceY_eq]
      exact snapFold_min y _ py _ none hy1 hy2 hy3 hy4 (Or.inl rfl)
    simp only [applySnapping, Bool.not_true]
    rw [if_neg (by simp)]
    rw [hX, hY]
    rfl
  · intro hxfar hyfar
    have hX : snapReduceX x (snapDistance / stageScale) (getAllSnapPoints shapes none) =
        none := by
      rw [snapReduceX_eq]
      exact snapFold_none_of_far x _ _ hxfar
    have hY : snapReduceY y (snapDistance / stageScale) (getAllSnapPoints shapes none) =
        none := by
      rw [snapReduceY_eq]
      exact snapFold_none_of_far y _ _ hyfar
    simp only [applySnapping, Bool.not_true]
    rw [if_neg (by simp)]
    rw [hX, hY]
    rfl

/-- Witness: C4 amended at concrete inputs: a candidate within the 1px
default tolerance of the corner (10, 10) snaps to it with one guide per
axis, and a candidate 40px or more from every snap point does not snap. -/
theorem applySnapping_spec_witness :
    applySnapping true 1 1 "0" [demoShape "a" 0 0 10 10] (21 / 2) (39 / 4) none =
      SnapResult.mk 10 10
        (some [GuideLine.mk "temp-v-0" GuideType.vertical 10 (some true),
               GuideLine.mk "temp-h-0" GuideType.horizontal 10 (some true)]) ∧
    applySnapping true 1 1 "0" [demoShape "a" 0 0 10 10] 50 50 none =
      SnapResult.mk 50 50 (some []) := by
  have h := applySnapping_spec 1 1 "0" [demoShape "a" 0 0 10 10] (21 / 2) (39 / 4) 10 10
  have h2 := applySnapping_spec 1 1 "0" [demoShape "a" 0 0 10 10] 50 50 0 0
  refine ⟨h.1 ?_ ?_ ?_ ?_ ?_ ?_ ?_ ?_, h2.2 ?_ ?_⟩
  · rw [demo_snap_points]
    norm_num
  · norm_num [abs_of_nonneg, abs_of_nonpos]
  · rw [demo_snap_points]
    intro w hw
    fin_cases hw <;> norm_num [abs_of_nonneg, abs_of_nonpos]
  · rw [demo_snap_points]
    intro w hw
    fin_cases hw <;> norm_num [abs_of_nonneg, abs_of_nonpos]
  · rw [demo_snap_points]
    norm_num
  · norm_num [abs_of_nonneg, abs_of_nonpos]
  · rw [demo_snap_points]
    intro w hw
    fin_cases hw <;> norm_num [abs_of_nonneg, abs_of_nonpos]
  · rw [demo_snap_points]
    intro w hw
    fin_cases hw <;> norm_num [abs_of_nonneg, abs_of_nonpos]
  · rw [demo_snap_points]
    intro w hw
    fin_cases hw <;> norm_num [abs_of_nonneg, abs_of_nonpos]
  · rw [demo_snap_points]
    intro w hw
    fin_cases hw <;> norm_num [abs_of_nonneg, abs_of_nonpos]

/-- The eraser sweep never changes the interaction mode flags. -/
theorem handleEraserMouseMove_flags (env : Env) (pos : ℚ × ℚ) (s : EngineState) :
    (handleEraserMouseMove env pos s).isPanning = s.isPanning ∧
    (handleEraserMouseMove env pos s).isDragging = s.isDragging ∧
    (handleEraserMouseMove env pos s).isResizing = s.isResizing ∧
    (handleEraserMouseMove env pos s).isDrawing = s.isDrawing := by
  simp only [handleEraserMouseMove]
  repeat' split
  all_goals exact ⟨rfl, rfl, rfl, rfl⟩

/-- The drawing branch of pointer-move never changes the mode flags. -/
theorem moveDrawing_flags (env : Env) (pos : ℚ × ℚ) (s : EngineState) :
    (moveDrawing env pos s).isPanning = s.isPanning ∧
    (moveDrawing env pos s).isDragging = s.isDragging ∧
    (moveDrawing env pos s).isResizing = s.isResizing ∧
    (moveDrawing env pos s).isDrawing = s.isDrawing := by
  simp only [moveDrawing]
  repeat' split
  all_goals exact ⟨rfl, rfl, rfl, rfl⟩

/-- The dragging branch of pointer-move never changes the mode flags. -/
theorem moveDragging_flags (env : Env) (pos : ℚ × ℚ) (s : EngineState) :
    (moveDragging env pos s).isPanning = s.isPanning ∧
    (moveDragging env pos s).isDragging = s.isDragging ∧
    (moveDragging env pos s).isResizing = s.isResizing ∧
    (moveDragging env pos s).isDrawing = s.isDrawing := by
  simp only [moveDragging]
  repeat' split
  all_goals
    first
      | exact ⟨rfl, rfl, rfl, rfl⟩
      | exact moveDrawing_flags env pos s

/-- The resizing branch of pointer-move never changes the mode flags. -/
theorem moveResize_flags (env : Env) (pos : ℚ × ℚ) (s : EngineState) :
    (moveResize env pos s).isPanning = s.isPanning ∧
    (moveResize env pos s).isDragging = s.isDragging ∧
    (moveResize env pos s).isResizing = s.isResizing ∧
    (moveResize env pos s).isDrawing = s.isDrawing := by
  simp only [moveResize]
  repeat' split
  all_goals
    first
      | exact ⟨rfl, rfl, rfl, rfl⟩
      | exact moveDragging_flags env pos s

/-- handleMouseMove never changes the interaction mode flags. -/
theorem handleMouseMove_flags (env : Env) (clientX clientY : ℚ) (s0 : EngineState) :
    (handleMouseMove env clientX clientY s0).isPanning = s0.isPanning ∧
    (handleMouseMove env clientX clientY s0).isDragging = s0.isDragging ∧
    (handleMouseMove env clientX clientY s0).isResizing = s0.isResizing ∧
    (handleMouseMove env clientX clientY s0).isDrawing = s0.isDrawing := by
  simp only [handleMouseMove]
  repeat' split
  all_goals
    first
      | exact ⟨rfl, rfl, rfl, rfl⟩
      | exact handleEraserMouseMove_flags env _ _
      | exact moveResize_flags env _ _

/-- Pointer-up unconditionally deactivates every mode and clears the
transient guides, in every branch. -/
theorem mouseUp_resets (env : Env) (s0 : EngineState) :
    (handleMouseUp env s0).isPanning = false ∧
    (handleMouseUp env s0).isDragging = false ∧
    (handleMouseUp env s0).isResizing = false ∧
    (handleMouseUp env s0).isDrawing = false ∧
    (handleMouseUp env s0).tempGuides = [] := by
  simp only [handleMouseUp, handleEraserMouseUp]
  repeat' split
  all_goals first
    | exact ⟨rfl, rfl, rfl, rfl, rfl⟩
    | refine ⟨rfl, rfl, rfl, ?_, rfl⟩
  all_goals simp_all

/-- Pointer-down from idle activates at most one interaction mode. -/
theorem mouseDown_atMostOne (env : Env) (clientX clientY : ℚ) (s : EngineState)
    (h : Idle s) : modeCount (handleMouseDown env clientX clientY s) ≤ 1 := by
  obtain ⟨hp, hd, hr, hw⟩ := h
  simp only [handleMouseDown, handleEraserMouseDown]
  repeat' split
  all_goals simp [modeCount, hp, hd, hr, hw]

/-- Every engine state reachable under the pointer contract has at most
one interaction mode active. -/
theorem engineReach_atMostOne : ∀ s : EngineState, EngineReach s → modeCount s ≤ 1 := by
  intro s h
  induction h with
  | init => decide
  | down env cx cy hr hidle ih => exact mouseDown_atMostOne env cx cy _ hidle
  | @move env cx cy s' hr ih =>
      have hf := handleMouseMove_flags env cx cy s'
      have heq : modeCount (handleMouseMove env cx cy s') = modeCount s' := by
        unfold modeCount
        rw [hf.1, hf.2.1, hf.2.2.1, hf.2.2.2]
      rw [heq]
      exact ih
  | @up env s' hr ih =>
      have hf := mouseUp_resets env s'
      unfold modeCount
      rw [hf.1, hf.2.1, hf.2.2.1, hf.2.2.2.1]
      decide

/-- C9: in every engine state reachable under the pointer contract at
most one of panning, dragging, resizing and drawing is active; a
pointer-down from idle activates at most one mode; and pointer-up
unconditionally deactivates all modes and clears the transient guide
lines regardless of the prior mode. -/
theorem interaction_modes_exclusive :
    ∀ (env : Env) (clientX clientY : ℚ) (s : EngineState),
      (EngineReach s → modeCount s ≤ 1) ∧
      (Idle s → modeCount (handleMouseDown env clientX clientY s) ≤ 1) ∧
      ((handleMouseUp env s).isPanning = false ∧
       (handleMouseUp env s).isDragging = false ∧
       (handleMouseUp env s).isResizing = false ∧
       (handleMouseUp env s).isDrawing = false ∧
       (handleMouseUp env s).tempGuides = []) :=
  fun env clientX clientY s =>
    ⟨engineReach_atMostOne s, mouseDown_atMostOne env clientX clientY s, mouseUp_resets env s⟩

/-- Witness: C9 at the initial engine state with a concrete
environment. -/
theorem interaction_modes_exclusive_witness :
    modeCount initialEngine ≤ 1 ∧
    modeCount (handleMouseDown demoEnv 3 4 initialEngine) ≤ 1 ∧
    (handleMouseUp demoEnv initialEngine).tempGuides = [] := by
  have h := interaction_modes_exclusive demoEnv 3 4 initialEngine
  exact ⟨h.1 EngineReach.init, h.2.1 ⟨rfl, rfl, rfl, rfl⟩, h.2.2.2.2.2.2⟩

/-- C2 counterexample: releasing the pen with a single buffered point
commits a one-point path to the model (the source threshold is a
nonempty buffer, not two points). -/
theorem single_point_buffer_is_committed :
    ((handleMouseUp demoEnv penOnePointEngine).store.paths.map CanvasPath.points) =
      [[3, 4]] := by
  decide

/-- C2 amended: on pen pointer-up the buffered path is committed as a new
Path whenever the buffer is nonempty (one point suffices); only an empty
buffer commits nothing. -/
theorem pen_commit_requires_nonempty_buffer :
    ∀ (env : Env) (s : EngineState),
      env.tool = Tool.pen →
      (s.isDrawing = true → s.currentPath ≠ [] →
        (handleMouseUp env s).store.paths =
          s.store.paths ++
            [CanvasPath.mk env.now
              (s.currentPath.foldr (fun p acc => p.1 :: p.2 :: acc) [])
              env.strokeColor env.strokeWidth none (some env.opacity)]) ∧
      (s.currentPath = [] → (handleMouseUp env s).store.paths = s.store.paths) := by
  intro env s htool
  constructor
  · intro hdraw hne
    have hlen : 0 < s.currentPath.length := List.length_pos.mpr hne
    simp [handleMouseUp, htool, hdraw, hlen, addPath, saveToHistory_paths]
  · intro hemp
    cases hd : s.isDrawing with
    | false => simp [handleMouseUp, htool, hd]
    | true =>
        cases hcs : s.currentShape with
        | none => simp [handleMouseUp, htool, hd, hemp, hcs]
        | some cs =>
            simp only [handleMouseUp, htool, hd, hemp, hcs]
            simp
            split
            · simp [addShape, saveToHistory_paths]
            · rfl

/-- Witness: C2 amended at a two-point buffer and at an empty buffer. -/
theorem pen_commit_requires_nonempty_buffer_witness :
    (handleMouseUp demoEnv penTwoPointEngine).store.paths =
      penTwoPointEngine.store.paths ++
        [CanvasPath.mk demoEnv.now
          (penTwoPointEngine.currentPath.foldr (fun p acc => p.1 :: p.2 :: acc) [])
          demoEnv.strokeColor demoEnv.strokeWidth none (some demoEnv.opacity)] ∧
    (handleMouseUp demoEnv initialEngine).store.paths = initialEngine.store.paths :=
  ⟨(pen_commit_requires_nonempty_buffer demoEnv penTwoPointEngine rfl).1 rfl (by decide),
   (pen_commit_requires_nonempty_buffer demoEnv initialEngine rfl).2 rfl⟩

/-- A commit from a cursor-at-newest store below capacity appends exactly
one history entry. -/
theorem saveToHistory_length_append (st : Store)
    (h1 : st.historyIndex = (st.history.length : ℤ) - 1) (h2 : st.history.length < 50) :
    (saveToHistory st).history.length = st.history.length + 1 := by
  have hslice : (jsSlice0 st.history (st.historyIndex + 1)).length = st.history.length := by
    simp only [jsSlice0]
    rw [if_neg (by omega), List.length_take]
    omega
  simp only [saveToHistory]
  rw [if_neg]
  · simp only [List.length_append, List.length_singleton, hslice]
  · simp only [List.length_append, List.length_singleton, hslice]
    omega

/-- C5: ending an eraser session on pointer-up deletes every touched id
from shapes and paths in one batch, records a single history commit (one
new entry when below capacity with the cursor at the newest entry), and
empties the touched set. -/
theorem eraser_pointer_up_batch_delete :
    ∀ (env : Env) (s : EngineState),
      env.tool = Tool.eraser →
      s.isDrawing = false →
      (handleMouseUp env s).erasedElements = [] ∧
      (handleMouseUp env s).store.shapes =
        s.store.shapes.filter (fun sh => ¬ s.erasedElements.contains sh.id) ∧
      (handleMouseUp env s).store.paths =
        s.store.paths.filter (fun p => ¬ s.erasedElements.contains p.id) ∧
      (s.store.historyIndex = (s.store.history.length : ℤ) - 1 →
       s.store.history.length < 50 →
        (handleMouseUp env s).store.history.length = s.store.history.length + 1) := by
  intro env s htool hdraw
  have hredux : handleMouseUp env s =
      { s with isMouseDown := false, store := eraseSelected s.erasedElements s.store,
               erasedElements := [], isPanning := false, isDragging := false,
               isResizing := false, resizeHandle := none, lastPanPoint := none,
               tempGuides := [] } := by
    simp [handleMouseUp, handleEraserMouseUp, htool, hdraw]
  rw [hredux]
  refine ⟨rfl, ?_, ?_, fun h1 h2 => ?_⟩
  · show (eraseSelected s.erasedElements s.store).shapes = _
    rw [eraseSelected, saveToHistory_shapes]
  · show (eraseSelected s.erasedElements s.store).paths = _
    rw [eraseSelected, saveToHistory_paths]
  · show (eraseSelected s.erasedElements s.store).history.length = _
    rw [eraseSelected]
    exact saveToHistory_length_append _ h1 h2

/-- Witness: C5 at an eraser session that touched two overlapping
shapes. -/
theorem eraser_pointer_up_batch_delete_witness :
    (handleMouseUp eraserEnv eraserEngine).erasedElements = [] ∧
    (handleMouseUp eraserEnv eraserEngine).store.shapes =
      eraserEngine.store.shapes.filter
        (fun sh => ¬ eraserEngine.erasedElements.contains sh.id) ∧
    (handleMouseUp eraserEnv eraserEngine).store.history.length =
      eraserEngine.store.history.length + 1 := by
  have h := eraser_pointer_up_batch_delete eraserEnv eraserEngine rfl rfl
  exact ⟨h.1, h.2.1, h.2.2.2 (by decide) (by decide)⟩

end CanvasCraft
